import Mathlib

/-!
Verification of the snapshot lifecycle and retention-rotation engine of
btrfs-snapshot-backup-manager.

The definitions below are shallow embeddings of the Python source:

* `DateTime`, `rataDie`, `isoweekday`, `toMin` model the naive local
  `datetime` values the scripts manipulate (minute resolution; the scripts
  only inspect `month`, `day`, `hour`, `isoweekday()` and compare
  timestamps chronologically).
* `classify` embeds the tier-classification chain of
  `btrfs-sbm.py` lines 371-380 and `sbmBTRFS/sbmBTRFS.py` lines 521-538.
* `SnapRec`, `SubvolCfg`, `prune`, `takeStep`, `rotateSubvol` embed the
  config-dict based automatic rotation pass
  (`btrfs-sbm.py` lines 347-414, `sbmBTRFS/sbmBTRFS.py` lines 490-594).
* `BSnap`, `Counts`, `BSubvol` and their operations embed the class-based
  model of `sbmBTRFS/btrfs_control.py` (`Subvolume.delete_snapshot`,
  `Subvolume.newest_snapshot`, `Subvolume.oldest_snapshot`,
  `Snapshot.__init__`, `Subvolume.__init__`, `Subvolume.take_snapshot`).
* `RegSubvol`, `initSubvolume` embed the `--init-subvolume` duplicate-name
  check of `sbmBTRFS/sbmBTRFS.py` lines 324-348.
-/

/-- Module-level flag from the source (`btrfs_control.py` line 10,
`sbmBTRFS.py` line 34): `TESTING = True`. -/
def TESTING : Bool := true

/-- Naive local timestamp at minute resolution, mirroring the fields of a
Python `datetime` that the scripts inspect. -/
structure DateTime where
  year : Nat
  month : Nat
  day : Nat
  hour : Nat
  minute : Nat
deriving DecidableEq, Repr

/-- Gregorian leap-year rule, as used by Python `datetime`. -/
def isLeap (y : Nat) : Bool :=
  (y % 4 == 0 && y % 100 != 0) || (y % 400 == 0)

/-- Days in the months strictly before month `m` of a year (1-based). -/
def daysBeforeMonth (m : Nat) (leap : Bool) : Nat :=
  (match m with
   | 1 => 0 | 2 => 31 | 3 => 59 | 4 => 90 | 5 => 120 | 6 => 151
   | 7 => 181 | 8 => 212 | 9 => 243 | 10 => 273 | 11 => 304 | 12 => 334
   | _ => 0)
  + (if leap && decide (2 < m) then 1 else 0)

/-- Rata-die day number of a date (0001-01-01 is day 1, a Monday in the
proleptic Gregorian calendar). -/
def rataDie (d : DateTime) : Nat :=
  365 * (d.year - 1) + (d.year - 1) / 4 - (d.year - 1) / 100
    + (d.year - 1) / 400 + daysBeforeMonth d.month (isLeap d.year) + d.day

/-- ISO weekday: 1 = Monday .. 7 = Sunday, as Python `isoweekday()`. -/
def isoweekday (d : DateTime) : Nat :=
  (rataDie d - 1) % 7 + 1

/-- Total minutes represented by a timestamp; timestamp comparison in the
source (`datetime` ordering, `timedelta(hours=1)`) is chronological and is
modelled by comparing these values. -/
def toMin (d : DateTime) : Nat :=
  (rataDie d * 24 + d.hour) * 60 + d.minute

/-- Snapshot tiers appearing in the source (`type` field of a snapshot). -/
inductive Tier where
  | init
  | hourly
  | daily
  | weekly
  | monthly
  | yearly
deriving DecidableEq, Repr

/-- Key order of the `num_snapshots` dict in the source, which is the order
the pruning loop iterates tiers in. -/
def prunableTiers : List Tier :=
  [Tier.hourly, Tier.daily, Tier.weekly, Tier.monthly, Tier.yearly]

/-- Tier classification of a newly taken snapshot, embedded from
`btrfs-sbm.py` lines 371-380 (identical chain in `sbmBTRFS.py` lines
521-538): the conditions are evaluated in the order daily, weekly, monthly,
yearly, with `hourly` as the fallback, first match winning.
`prev` is `newest_snapshot_time`, `now` is `time_now`. -/
def classify (prev now : DateTime) : Tier :=
  if now.hour == 0 && !(prev.hour == 0) then Tier.daily
  else if isoweekday now == 1 && !(isoweekday prev == 1) then Tier.weekly
  else if now.day == 1 && !(prev.day == 1) then Tier.monthly
  else if (now.month == 1 && now.day == 1)
          && !(prev.month == 1 && prev.day == 1) then Tier.yearly
  else Tier.hourly

/-! ### Config-dict model of the automatic rotation pass -/

/-- One value of the `subvolume['snapshots']` dict: the per-snapshot record
`{name, path, creation-date-time, type}` written by the scripts. The list
order models dict insertion order. -/
structure SnapRec where
  name : String
  path : String
  cdt : DateTime
  type_ : Tier
deriving DecidableEq, Repr

/-- Chronological comparison used when sorting snapshot records by their
`creation-date-time` key (lexicographic on the stored isoformat string,
which is chronological order). -/
def cdtLe (a b : SnapRec) : Prop := toMin a.cdt ≤ toMin b.cdt

instance : DecidableRel cdtLe := fun _ _ => Nat.decLe _ _

instance : IsTotal SnapRec cdtLe := ⟨fun _ _ => Nat.le_total _ _⟩

instance : IsTrans SnapRec cdtLe := ⟨fun _ _ _ => Nat.le_trans⟩

instance : IsRefl SnapRec cdtLe := ⟨fun _ => Nat.le_refl _⟩

/-- One subvolume config entry: `name`, `path`, the five
`options['keep-...']` values and the `snapshots` dict (in insertion
order). -/
structure SubvolCfg where
  name : String
  path : String
  keepHourly : Nat
  keepDaily : Nat
  keepWeekly : Nat
  keepMonthly : Nat
  keepYearly : Nat
  snapshots : List SnapRec
deriving DecidableEq, Repr

/-- Lookup of `subvolume['options']["keep-" + type]`. The source dict has
no `keep-init` key and the pruning loop never looks `init` up; the `init`
branch here is an unused total-function default. -/
def keepOf (sv : SubvolCfg) : Tier → Nat
  | Tier.init => 0
  | Tier.hourly => sv.keepHourly
  | Tier.daily => sv.keepDaily
  | Tier.weekly => sv.keepWeekly
  | Tier.monthly => sv.keepMonthly
  | Tier.yearly => sv.keepYearly

/-- Embeds `snapshots_by_type[t]`: the records of type `t`, in dict insertion
order (the counting loop also computes `num_snapshots[t]` as the length of
this list, skipping `init`). -/
def tierMembers (l : List SnapRec) (t : Tier) : List SnapRec :=
  l.filter (fun s => s.type_ == t)

/-- The dict keys deleted for tier `t`: the pruning loop sorts
`snapshots_by_type[t]` ascending by `creation-date-time` and deletes the
first `count - keep` entries (`newlist[sel][0]` for
`sel in range(value - keep)`). -/
def pruneTierNames (sv0 : SubvolCfg) (t : Tier) : List String :=
  ((List.insertionSort cdtLe (tierMembers sv0.snapshots t)).take
      ((tierMembers sv0.snapshots t).length - keepOf sv0 t)).map SnapRec.name

/-- One iteration of the pruning loop body for tier `t`: counts and sorted
lists are the ones computed before the loop from the original dict `sv0`,
deletions (`del subvolume['snapshots'][key]`) apply to the current dict
`cur`. -/
def pruneStep (sv0 : SubvolCfg) (cur : List SnapRec) (t : Tier) : List SnapRec :=
  if keepOf sv0 t < (tierMembers sv0.snapshots t).length then
    cur.filter (fun s => !(pruneTierNames sv0 t).contains s.name)
  else cur

/-- The whole pruning pass: iterate the loop body over the tiers in the
key order of `num_snapshots`. -/
def prune (sv : SubvolCfg) : SubvolCfg :=
  { sv with snapshots := prunableTiers.foldl (pruneStep sv) sv.snapshots }

/-- Embeds `snapshot_name = subvolume_name + "-" + time_now.isoformat()` uses the
isoformat text of the timestamp. -/
def pad2 (n : Nat) : String :=
  if n < 10 then "0" ++ toString n else toString n

/-- Isoformat text of a timestamp at the resolution of this model. -/
def isoformatDT (d : DateTime) : String :=
  toString d.year ++ "-" ++ pad2 d.month ++ "-" ++ pad2 d.day ++ "T"
    ++ pad2 d.hour ++ ":" ++ pad2 d.minute ++ ":00"

/-- Embeds `os.path.join` for the paths built by the scripts. -/
def pathJoin (a b : String) : String := a ++ "/" ++ b

/-- Embeds `snapshot_subvol_name = ".snapshots"` from the scripts. -/
def snapshotSubvolName : String := ".snapshots"

/-- Embeds `max(subvolume['snapshots'].items(), key=...creation-date-time...)`:
first maximal element under the chronological key, `none` on an empty dict
(where Python `max` raises `ValueError`). -/
def maxByCdt : List SnapRec → Option SnapRec
  | [] => none
  | x :: xs =>
      some (xs.foldl (fun acc s => if toMin acc.cdt < toMin s.cdt then s else acc) x)

/-- The take-and-classify step of the automatic pass for one subvolume:
if at least one hour passed since the newest snapshot, a new record named
`{name}-{isoformat}` with `creation-date-time = now` and the classified
type is inserted; otherwise the dict is left alone. `none` models the
`ValueError` Python `max` raises on a subvolume with no snapshots. -/
def takeStep (now : DateTime) (sv : SubvolCfg) : Option SubvolCfg :=
  match maxByCdt sv.snapshots with
  | none => none
  | some newest =>
    if toMin newest.cdt + 60 ≤ toMin now then
      some { sv with snapshots := sv.snapshots ++
        [{ name := sv.name ++ "-" ++ isoformatDT now,
           path := pathJoin (pathJoin sv.path snapshotSubvolName)
                     (sv.name ++ "-" ++ isoformatDT now),
           cdt := now,
           type_ := classify newest.cdt now }] }
    else some sv

/-- One full automatic rotation pass over one subvolume: the take step
followed unconditionally by the pruning loop. -/
def rotateSubvol (now : DateTime) (sv : SubvolCfg) : Option SubvolCfg :=
  (takeStep now sv).map prune

/-- Dict-key uniqueness: the `name` fields are the keys of the
`subvolume['snapshots']` dict, hence pairwise distinct. -/
def validNames (l : List SnapRec) : Prop :=
  (l.map SnapRec.name).Nodup

instance (l : List SnapRec) : Decidable (validNames l) :=
  inferInstanceAs (Decidable (List.Nodup _))

/-! ### Class-based model of `sbmBTRFS/btrfs_control.py` -/

/-- Python exceptions raised by the embedded code paths. -/
inductive PyErr where
  | attributeError (attr : String)
  | typeError
  | valueError
  | keyError
  | indexError
deriving DecidableEq, Repr

/-- The fields assigned by `Snapshot.__init__` plus the `physical` flag.
`subvolName` stands for the owning `Subvolume` reference; `Subvolume`
equality compares names only, so the name suffices for `__eq__`. -/
structure BSnap where
  name : String
  path : String
  type_ : Tier
  cdt : DateTime
  subvolName : String
  readOnly : Bool
  physical : Bool
deriving DecidableEq, Repr

/-- Embeds `Snapshot.__eq__` (btrfs_control.py lines 306-314): path, name, owning
subvolume (by name), creation time, type and read-only flag — the
`physical` flag does not participate. -/
def BSnap.pyEq (a b : BSnap) : Bool :=
  a.path == b.path && a.name == b.name && a.subvolName == b.subvolName
    && a.cdt == b.cdt && a.type_ == b.type_ && a.readOnly == b.readOnly

/-- Chronological order on snapshots: `Snapshot.__lt__` compares
`creation_date_time`, and `list.sort()` sorts ascending and stable. -/
def bcdtLe (a b : BSnap) : Prop := toMin a.cdt ≤ toMin b.cdt

instance : DecidableRel bcdtLe := fun _ _ => Nat.decLe _ _

instance : IsTotal BSnap bcdtLe := ⟨fun _ _ => Nat.le_total _ _⟩

instance : IsTrans BSnap bcdtLe := ⟨fun _ _ _ => Nat.le_trans⟩

instance : IsRefl BSnap bcdtLe := ⟨fun _ => Nat.le_refl _⟩

/-- The `num_snapshots` dict of a `Subvolume`: exactly the five prunable
keys (btrfs_control.py lines 32-38) — there is no `init` key. -/
structure Counts where
  hourly : Int
  daily : Int
  weekly : Int
  monthly : Int
  yearly : Int
deriving DecidableEq, Repr

/-- Dict read `num_snapshots[t]`; `none` models the missing `init` key. -/
def Counts.get? : Counts → Tier → Option Int
  | _, Tier.init => none
  | c, Tier.hourly => some c.hourly
  | c, Tier.daily => some c.daily
  | c, Tier.weekly => some c.weekly
  | c, Tier.monthly => some c.monthly
  | c, Tier.yearly => some c.yearly

/-- Embeds `num_snapshots[t] -= 1`: `KeyError` on the absent `init` key. -/
def Counts.decAt (c : Counts) : Tier → Except PyErr Counts
  | Tier.init => Except.error PyErr.keyError
  | Tier.hourly => Except.ok { c with hourly := c.hourly - 1 }
  | Tier.daily => Except.ok { c with daily := c.daily - 1 }
  | Tier.weekly => Except.ok { c with weekly := c.weekly - 1 }
  | Tier.monthly => Except.ok { c with monthly := c.monthly - 1 }
  | Tier.yearly => Except.ok { c with yearly := c.yearly - 1 }

/-- Embeds `num_snapshots[t] += 1`: `KeyError` on the absent `init` key. -/
def Counts.incAt (c : Counts) : Tier → Except PyErr Counts
  | Tier.init => Except.error PyErr.keyError
  | Tier.hourly => Except.ok { c with hourly := c.hourly + 1 }
  | Tier.daily => Except.ok { c with daily := c.daily + 1 }
  | Tier.weekly => Except.ok { c with weekly := c.weekly + 1 }
  | Tier.monthly => Except.ok { c with monthly := c.monthly + 1 }
  | Tier.yearly => Except.ok { c with yearly := c.yearly + 1 }

/-- A constructed `Subvolume` object: name, path, the `physical` flag, the
`num_snapshots` and `keep_snapshots` dicts and the `_snapshots` list. -/
structure BSubvol where
  name : String
  path : String
  physical : Bool
  counts : Counts
  keeps : Counts
  snapshots : List BSnap
deriving DecidableEq, Repr

/-- Whether `Snapshot.delete` actually performs the backend deletion: only
when the snapshot is `physical`; otherwise it merely logs an error. In
both cases the method returns normally and reports nothing. -/
def snapDeleteBackendOk (s : BSnap) : Bool := s.physical

/-- Embeds `list.remove(x)`: drop the first element comparing `==` to `x`, or
raise `ValueError` when none does. -/
def removeFirst (l : List BSnap) (x : BSnap) : Except PyErr (List BSnap) :=
  match l with
  | [] => Except.error PyErr.valueError
  | y :: ys =>
      if y.pyEq x then Except.ok ys
      else (removeFirst ys x).map (fun r => y :: r)

/-- Embeds `Subvolume.delete_snapshot` (btrfs_control.py lines 218-222), line by
line: first `self.num_snapshots[snapshot.type_] -= 1` (a `KeyError` for an
`init` snapshot), then `snapshot.delete()` — which never raises and leaves
the object state alone — then `self._snapshots.remove(snapshot)` (a
`ValueError` when no member compares equal). The result pairs the state
the object is left in with the exception raised, if any. -/
def delete_snapshot (sv : BSubvol) (snap : BSnap) : BSubvol × Option PyErr :=
  match sv.counts.decAt snap.type_ with
  | Except.error e => (sv, some e)
  | Except.ok c =>
    let sv1 := { sv with counts := c }
    match removeFirst sv1.snapshots snap with
    | Except.error e => (sv1, some e)
    | Except.ok l => ({ sv1 with snapshots := l }, none)

/-- Embeds `Subvolume.newest_snapshot` (btrfs_control.py lines 247-260):
`self.sort()`, then either the last element of the sorted list, or — when
a tier is given — the last element of the sorted sublist of that tier.
Indexing `[-1]` into an empty list raises `IndexError`, which realises the
`Empty` failure of the specification. -/
def newest_snapshot (sv : BSubvol) (type_ : Option Tier) : Except PyErr BSnap :=
  let sorted := List.insertionSort bcdtLe sv.snapshots
  match type_ with
  | some t =>
    match (List.insertionSort bcdtLe
        (sorted.filter (fun s => s.type_ == t))).getLast? with
    | some s => Except.ok s
    | none => Except.error PyErr.indexError
  | none =>
    match sorted.getLast? with
    | some s => Except.ok s
    | none => Except.error PyErr.indexError

/-- Embeds `Subvolume.oldest_snapshot` (btrfs_control.py lines 262-275): same as
`newest_snapshot` with index `[0]` instead of `[-1]`. -/
def oldest_snapshot (sv : BSubvol) (type_ : Option Tier) : Except PyErr BSnap :=
  let sorted := List.insertionSort bcdtLe sv.snapshots
  match type_ with
  | some t =>
    match (List.insertionSort bcdtLe
        (sorted.filter (fun s => s.type_ == t))).head? with
    | some s => Except.ok s
    | none => Except.error PyErr.indexError
  | none =>
    match sorted.head? with
    | some s => Except.ok s
    | none => Except.error PyErr.indexError

/-- Attribute lookup on an object given the attribute names it carries:
an unknown name raises `AttributeError`. -/
def getAttrTest (attrs : List String) (a : String) : Except PyErr Unit :=
  if attrs.contains a then Except.ok () else Except.error (PyErr.attributeError a)

/-- Number of parameters besides `self` in the declaration
`def exists(self):` of the `Snapshot` class (btrfs_control.py line 324). -/
def snapshotExistsArity : Nat := 0

/-- A call to the bound method `Snapshot.exists` with the given positional
argument list: Python checks the arity against the declaration before the
body runs; the body returns `True` under `TESTING` and otherwise asks the
backend about `self.path`. -/
def snapshotExistsCall (backend : String → Bool) (path : String)
    (args : List String) : Except PyErr Bool :=
  if args.length == snapshotExistsArity then
    Except.ok (if TESTING then true else backend path)
  else Except.error PyErr.typeError

/-- Embeds `Snapshot.__init__` (btrfs_control.py lines 286-300): assigns the six
fields, then evaluates `self.exists(self.path)` — a call carrying one
positional argument to a method declared with none. -/
def snapshotInit (backend : String → Bool) (name path : String) (type_ : Tier)
    (cdt : DateTime) (subvolName : String) (readOnly : Bool) :
    Except PyErr BSnap :=
  match snapshotExistsCall backend path [path] with
  | Except.error e => Except.error e
  | Except.ok b =>
      Except.ok { name := name, path := path, type_ := type_, cdt := cdt,
                  subvolName := subvolName, readOnly := readOnly,
                  physical := b }

/-- Attribute names a `Subvolume` object carries once `__init__`
completed (only possible through the non-physical branch): note
`snapshots_subvol`, with an s (btrfs_control.py line 31). -/
def subvolAttrs : List String :=
  ["path", "name", "snapshots_subvol", "num_snapshots", "keep_snapshots",
   "physical", "_snapshots"]

/-- Embeds `Subvolume.take_snapshot` (btrfs_control.py lines 152-216): on a
physical subvolume it computes the snapshot name and then evaluates
`os.path.join(self.path, self.snapshot_subvol, snapshot_name)` — reading
the never-assigned attribute `snapshot_subvol` — before invoking the
backend and constructing the `Snapshot`; on a non-physical subvolume it
logs an error and returns `None`. -/
def takeSnapshot (backend : String → Bool) (sv : BSubvol) (type_ : Tier)
    (now : DateTime) (ro : Bool) : Except PyErr (BSubvol × Option BSnap) :=
  if sv.physical then
    match getAttrTest subvolAttrs "snapshot_subvol" with
    | Except.error e => Except.error e
    | Except.ok _ =>
      match snapshotInit backend (sv.name ++ "-" ++ isoformatDT now)
          (pathJoin (pathJoin sv.path snapshotSubvolName)
            (sv.name ++ "-" ++ isoformatDT now)) type_ now sv.name ro with
      | Except.error e => Except.error e
      | Except.ok snap =>
        match sv.counts.incAt type_ with
        | Except.error e => Except.error e
        | Except.ok c =>
            Except.ok
              ({ sv with
                  snapshots := sv.snapshots ++ [snap]
                  counts := c },
               some snap)
  else
    Except.ok (sv, none)

/-- Embeds `os.path.basename(os.path.normpath(path))`. -/
def basename (p : String) : String :=
  ((p.splitOn "/").filter (fun s => !(s == ""))).getLastD p

/-- Attribute names assigned by `Subvolume.__init__` before the physical
check (btrfs_control.py lines 29-45): the container attribute assigned is
`snapshots_subvol`. -/
def subvolInitAttrs : List String :=
  ["path", "name", "snapshots_subvol", "num_snapshots", "keep_snapshots"]

/-- The classmethod `Subvolume.exists`: `True` under `TESTING`, otherwise
the backend answer for `btrfs subvolume show path`. -/
def subvolExists (backend : String → Bool) (path : String) : Bool :=
  if TESTING then true else backend path

/-- Embeds `Subvolume.__init__` (btrfs_control.py lines 21-55): assigns the five
attributes above; when `self.exists(self.path)` holds it then evaluates
`os.path.join(self.path, self.snapshot_subvol)` — an attribute read of
`snapshot_subvol`, which was never assigned — and otherwise completes with
`physical = False`. -/
def subvolInit (backend : String → Bool) (path snapshotsSubvol : String)
    (hourly daily weekly monthly yearly : Int) : Except PyErr BSubvol :=
  if subvolExists backend path then
    match getAttrTest subvolInitAttrs "snapshot_subvol" with
    | Except.error e => Except.error e
    | Except.ok _ =>
        Except.ok { name := basename path, path := path, physical := true,
                    counts := ⟨0, 0, 0, 0, 0⟩,
                    keeps := ⟨hourly, daily, weekly, monthly, yearly⟩,
                    snapshots := [] }
  else
    Except.ok { name := basename path, path := path, physical := false,
                counts := ⟨0, 0, 0, 0, 0⟩,
                keeps := ⟨hourly, daily, weekly, monthly, yearly⟩,
                snapshots := [] }

/-! ### Registry model for the `--init-subvolume` duplicate check -/

/-- What the duplicate check consults of a `Subvolume` object: `in` tests
elementwise `==`, and `Subvolume.__eq__` compares names only. -/
structure RegSubvol where
  name : String
  physical : Bool
deriving DecidableEq, Repr

/-- Embeds `temp_sub in subvolumes` under `Subvolume.__eq__`. -/
def registryContains (subvols : List RegSubvol) (x : RegSubvol) : Bool :=
  subvols.any (fun e => e.name == x.name)

/-- Outcome of the `--init-subvolume` branch. -/
inductive InitOutcome where
  | duplicateName
  | initialized
  | notASubvolume
deriving DecidableEq, Repr

/-- The `--init-subvolume` branch (sbmBTRFS.py lines 329-348) around the
already-constructed `temp_sub`: a duplicate name prints the
names-must-be-unique message and exits via `sys.exit(1)` before any
mutation; a physical subvolume takes the init snapshot; otherwise the
not-a-subvolume message exits. No branch appends to `subvolumes`, so the
registry list is returned as it was in every case. -/
def initSubvolume (reg : List RegSubvol) (temp : RegSubvol) :
    InitOutcome × List RegSubvol :=
  if registryContains reg temp then (InitOutcome.duplicateName, reg)
  else if temp.physical then (InitOutcome.initialized, reg)
  else (InitOutcome.notASubvolume, reg)

/-! ### Spec-side definitions and concrete instances -/

/-- First-match-wins evaluation of a condition/tier priority list, with a
fallback tier — the shape of the classification described by the
specification. -/
def firstMatch : List (Bool × Tier) → Tier → Tier
  | [], dflt => dflt
  | (c, t) :: rest, dflt => if c then t else firstMatch rest dflt

/-- Condition for yearly, stated from the wording of §4.3 of the
specification. -/
def yearlyCond (prev now : DateTime) : Bool :=
  (now.month == 1 && now.day == 1) && !(prev.month == 1 && prev.day == 1)

/-- Condition for monthly, stated from the wording of the
specification. -/
def monthlyCond (prev now : DateTime) : Bool :=
  now.day == 1 && !(prev.day == 1)

/-- Condition for weekly (ISO Monday), stated from the wording of the
specification. -/
def weeklyCond (prev now : DateTime) : Bool :=
  isoweekday now == 1 && !(isoweekday prev == 1)

/-- Condition for daily (midnight hour), stated from the wording of the
specification. -/
def dailyCond (prev now : DateTime) : Bool :=
  now.hour == 0 && !(prev.hour == 0)

/-- The snapshots a `newest_snapshot`/`oldest_snapshot` query ranges
over: the whole collection, or the members of the given tier. -/
def queryMembers (sv : BSubvol) (q : Option Tier) : List BSnap :=
  match q with
  | some t => sv.snapshots.filter (fun s => s.type_ == t)
  | none => sv.snapshots

/-- The previous-newest timestamp of the example in claim C1:
2021-12-31T23:00. -/
def prevNewYear : DateTime := ⟨2021, 12, 31, 23, 0⟩

/-- The new-snapshot timestamp of the example in claim C1:
2022-01-01T00:00. -/
def nowNewYear : DateTime := ⟨2022, 1, 1, 0, 0⟩

/-- Concrete subvolume used to instantiate the pruning theorems: the
keep-hourly = 2 scenario of the specification, with snapshots at T, T+1h,
T+2h besides the init snapshot. -/
def svScenario : SubvolCfg :=
  { name := "root", path := "/root", keepHourly := 2, keepDaily := 10,
    keepWeekly := 0, keepMonthly := 10, keepYearly := 10,
    snapshots :=
      [ ⟨"s0", "p0", ⟨2022, 3, 2, 9, 0⟩, Tier.init⟩,
        ⟨"s1", "p1", ⟨2022, 3, 2, 10, 0⟩, Tier.hourly⟩,
        ⟨"s2", "p2", ⟨2022, 3, 2, 11, 0⟩, Tier.hourly⟩,
        ⟨"s3", "p3", ⟨2022, 3, 2, 12, 0⟩, Tier.hourly⟩ ] }

/-- Concrete subvolume used to instantiate the hourly-gate theorem. -/
def svGate : SubvolCfg :=
  { name := "root", path := "/root", keepHourly := 10, keepDaily := 10,
    keepWeekly := 0, keepMonthly := 10, keepYearly := 10,
    snapshots := [⟨"s0", "p0", ⟨2022, 3, 2, 9, 0⟩, Tier.init⟩] }

/-- A non-physical hourly snapshot: its backend deletion is not performed
(`Snapshot.delete` only logs in that case). -/
def snapC2 : BSnap :=
  { name := "root-2022-03-02T10:00:00",
    path := "/root/.snapshots/root-2022-03-02T10:00:00",
    type_ := Tier.hourly, cdt := ⟨2022, 3, 2, 10, 0⟩, subvolName := "root",
    readOnly := true, physical := false }

/-- A subvolume whose collection holds exactly `snapC2`, with an hourly
count of one. -/
def svC2 : BSubvol :=
  { name := "root", path := "/root", physical := true,
    counts := ⟨1, 0, 0, 0, 0⟩, keeps := ⟨10, 10, 0, 10, 10⟩,
    snapshots := [snapC2] }

/-- A one-element registry. -/
def regC5 : List RegSubvol := [⟨"root", true⟩]

/-- A new subvolume whose name collides with the registered one. -/
def tempC5 : RegSubvol := ⟨"root", true⟩

/-- Subvolume with two hourly snapshots, used to instantiate the query
theorem. -/
def svC8 : BSubvol :=
  { name := "root", path := "/root", physical := true,
    counts := ⟨2, 0, 0, 0, 0⟩, keeps := ⟨10, 10, 0, 10, 10⟩,
    snapshots :=
      [ ⟨"a", "pa", Tier.hourly, ⟨2022, 3, 2, 10, 0⟩, "root", true, true⟩,
        ⟨"b", "pb", Tier.hourly, ⟨2022, 3, 2, 11, 0⟩, "root", true, true⟩ ] }

-- Calendar sanity checks against known dates.
example : isoweekday ⟨2022, 1, 1, 0, 0⟩ = 6 := by decide
example : isoweekday ⟨2021, 12, 31, 23, 0⟩ = 5 := by decide
example : isoweekday ⟨2022, 3, 7, 10, 0⟩ = 1 := by decide
example : isoweekday ⟨2022, 3, 14, 10, 0⟩ = 1 := by decide
example : isoweekday ⟨2024, 2, 29, 0, 0⟩ = 4 := by decide

/-! ### Helper lemmas about the pruning pass -/

/-- With pairwise-distinct names (dict keys), the name determines the
record. -/
theorem name_inj {l : List SnapRec} (h : validNames l) :
    ∀ {a b : SnapRec}, a ∈ l → b ∈ l → a.name = b.name → a = b := by
  induction l with
  | nil => intro a b ha _ _; cases ha
  | cons y ys ih =>
    have hy : y.name ∉ ys.map SnapRec.name := (List.nodup_cons.mp h).1
    have hys : validNames ys := (List.nodup_cons.mp h).2
    intro a b ha hb hab
    rcases List.mem_cons.mp ha with rfl | ha2
    · rcases List.mem_cons.mp hb with rfl | hb2
      · rfl
      · exact absurd (hab ▸ List.mem_map_of_mem SnapRec.name hb2) hy
    · rcases List.mem_cons.mp hb with rfl | hb2
      · exact absurd (hab ▸ List.mem_map_of_mem SnapRec.name ha2) hy
      · exact ih hys ha2 hb2 hab

/-- Each pruning-loop iteration only deletes entries. -/
theorem pruneStep_sublist (sv0 : SubvolCfg) (cur : List SnapRec) (t : Tier) :
    List.Sublist (pruneStep sv0 cur t) cur := by
  unfold pruneStep
  split
  · exact List.filter_sublist cur
  · exact List.Sublist.refl cur

/-- The whole loop only deletes entries. -/
theorem pruneFold_sublist (sv0 : SubvolCfg) :
    ∀ (ts : List Tier) (cur : List SnapRec),
      List.Sublist (List.foldl (pruneStep sv0) cur ts) cur := by
  intro ts
  induction ts with
  | nil => intro cur; exact List.Sublist.refl cur
  | cons t ts ih =>
    intro cur
    exact List.Sublist.trans (ih (pruneStep sv0 cur t))
      (pruneStep_sublist sv0 cur t)

/-- Every name scheduled for deletion in tier `t` is the name of a member
of tier `t` of the original dict. -/
theorem pruneTierNames_from_members (sv0 : SubvolCfg) (t : Tier) :
    ∀ x ∈ pruneTierNames sv0 t,
      ∃ s ∈ tierMembers sv0.snapshots t, s.name = x := by
  intro x hx
  unfold pruneTierNames at hx
  rcases List.mem_map.mp hx with ⟨s, hs, rfl⟩
  have hs2 : s ∈ List.insertionSort cdtLe (tierMembers sv0.snapshots t) :=
    (List.take_sublist _ _).subset hs
  exact ⟨s, (List.perm_insertionSort cdtLe _).subset hs2, rfl⟩

/-- A loop iteration for tier `t` leaves the members of any other tier
untouched (names are dict keys, so a deletion for tier `t` cannot hit a
record of another tier). -/
theorem pruneStep_tierMembers_other (sv0 : SubvolCfg)
    (hN : validNames sv0.snapshots) {cur : List SnapRec} {t t2 : Tier}
    (hne : t2 ≠ t) (hsub : List.Sublist cur sv0.snapshots) :
    tierMembers (pruneStep sv0 cur t) t2 = tierMembers cur t2 := by
  unfold pruneStep
  split
  · unfold tierMembers
    rw [List.filter_filter]
    apply List.filter_congr
    intro s hs
    by_cases h2 : s.type_ == t2
    · have hnc : (pruneTierNames sv0 t).contains s.name = false := by
        rw [Bool.eq_false_iff]
        intro hc
        have hmem : s.name ∈ pruneTierNames sv0 t := by simpa using hc
        rcases pruneTierNames_from_members sv0 t s.name hmem with ⟨s2, hs2, hns⟩
        have hs2N : s2 ∈ sv0.snapshots :=
          (List.filter_sublist sv0.snapshots).subset hs2
        have hsN : s ∈ sv0.snapshots := hsub.subset hs
        have : s = s2 := name_inj hN hsN hs2N hns.symm
        have ht2 : s.type_ = t2 := by simpa using h2
        have htt : s2.type_ = t := by
          have := List.mem_filter.mp hs2
          simpa using this.2
        exact hne (by rw [← ht2, this, htt])
      have hnm : s.name ∉ pruneTierNames sv0 t := by simpa using hnc
      simp [hnm, h2]
    · simp [h2]
  · rfl

/-- Folding loop iterations for tiers other than `t2` leaves the members
of `t2` untouched. -/
theorem pruneFold_tierMembers_other (sv0 : SubvolCfg)
    (hN : validNames sv0.snapshots) :
    ∀ (ts : List Tier) (cur : List SnapRec) {t2 : Tier}, t2 ∉ ts →
      List.Sublist cur sv0.snapshots →
      tierMembers (List.foldl (pruneStep sv0) cur ts) t2 = tierMembers cur t2 := by
  intro ts
  induction ts with
  | nil => intro cur t2 _ _; rfl
  | cons t ts ih =>
    intro cur t2 hnm hsub
    have h1 : t2 ∉ ts := fun h => hnm (List.mem_cons_of_mem t h)
    have h2 : t2 ≠ t := fun h => hnm (h ▸ List.mem_cons_self t ts)
    calc tierMembers (List.foldl (pruneStep sv0) (pruneStep sv0 cur t) ts) t2
        = tierMembers (pruneStep sv0 cur t) t2 :=
          ih _ h1 (List.Sublist.trans (pruneStep_sublist sv0 cur t) hsub)
      _ = tierMembers cur t2 := pruneStep_tierMembers_other sv0 hN h2 hsub

/-- Processing the loop iteration of tier `t` itself, with the current
dict agreeing with the original on tier `t`. -/
theorem tierMembers_pruneStep_self (sv0 : SubvolCfg) {cur : List SnapRec}
    {t : Tier} (hcur : tierMembers cur t = tierMembers sv0.snapshots t) :
    tierMembers (pruneStep sv0 cur t) t
      = if keepOf sv0 t < (tierMembers sv0.snapshots t).length
        then (tierMembers sv0.snapshots t).filter
               (fun s => !(pruneTierNames sv0 t).contains s.name)
        else tierMembers sv0.snapshots t := by
  by_cases h : keepOf sv0 t < (tierMembers sv0.snapshots t).length
  · rw [pruneStep, if_pos h, if_pos h, ← hcur]
    unfold tierMembers
    rw [List.filter_filter, List.filter_filter]
    apply List.filter_congr
    intro s _
    exact Bool.and_comm _ _
  · rw [pruneStep, if_neg h, if_neg h, hcur]

/-- The members of a prunable tier after the whole pass, computed through
a decomposition of the tier list around `t`. -/
theorem tierMembers_prune_split (sv : SubvolCfg) (hN : validNames sv.snapshots)
    (l1 l2 : List Tier) (t : Tier) (hsplit : prunableTiers = l1 ++ t :: l2)
    (h1 : t ∉ l1) (h2 : t ∉ l2) :
    tierMembers (prune sv).snapshots t
      = if keepOf sv t < (tierMembers sv.snapshots t).length
        then (tierMembers sv.snapshots t).filter
               (fun s => !(pruneTierNames sv t).contains s.name)
        else tierMembers sv.snapshots t := by
  have hx : (prune sv).snapshots
      = List.foldl (pruneStep sv) sv.snapshots prunableTiers := rfl
  rw [hx, hsplit, List.foldl_append, List.foldl_cons]
  rw [pruneFold_tierMembers_other sv hN l2 _ h2
    (List.Sublist.trans (pruneStep_sublist sv _ t)
      (pruneFold_sublist sv l1 sv.snapshots))]
  exact tierMembers_pruneStep_self sv
    (pruneFold_tierMembers_other sv hN l1 sv.snapshots h1
      (List.Sublist.refl sv.snapshots))

/-- The members of a prunable tier after the whole pruning pass. -/
theorem tierMembers_prune (sv : SubvolCfg) (hN : validNames sv.snapshots)
    (t : Tier) (ht : t ∈ prunableTiers) :
    tierMembers (prune sv).snapshots t
      = if keepOf sv t < (tierMembers sv.snapshots t).length
        then (tierMembers sv.snapshots t).filter
               (fun s => !(pruneTierNames sv t).contains s.name)
        else tierMembers sv.snapshots t := by
  simp only [prunableTiers, List.mem_cons, List.not_mem_nil, or_false] at ht
  rcases ht with rfl | rfl | rfl | rfl | rfl
  · exact tierMembers_prune_split sv hN []
      [Tier.daily, Tier.weekly, Tier.monthly, Tier.yearly] _ rfl
      (by decide) (by decide)
  · exact tierMembers_prune_split sv hN [Tier.hourly]
      [Tier.weekly, Tier.monthly, Tier.yearly] _ rfl (by decide) (by decide)
  · exact tierMembers_prune_split sv hN [Tier.hourly, Tier.daily]
      [Tier.monthly, Tier.yearly] _ rfl (by decide) (by decide)
  · exact tierMembers_prune_split sv hN
      [Tier.hourly, Tier.daily, Tier.weekly] [Tier.yearly] _ rfl
      (by decide) (by decide)
  · exact tierMembers_prune_split sv hN
      [Tier.hourly, Tier.daily, Tier.weekly, Tier.monthly] [] _ rfl
      (by decide) (by decide)

/-- The `init` tier is untouched by the pruning pass. -/
theorem tierMembers_prune_init (sv : SubvolCfg)
    (hN : validNames sv.snapshots) :
    tierMembers (prune sv).snapshots Tier.init
      = tierMembers sv.snapshots Tier.init := by
  have hx : (prune sv).snapshots
      = List.foldl (pruneStep sv) sv.snapshots prunableTiers := rfl
  rw [hx]
  exact pruneFold_tierMembers_other sv hN prunableTiers sv.snapshots
    (by decide) (List.Sublist.refl sv.snapshots)

/-- Removing a list of distinct names, each present, from a list with
distinct names removes exactly one record per name. -/
theorem filter_not_names_length :
    ∀ (m : List SnapRec) (d : List String),
      (m.map SnapRec.name).Nodup → d.Nodup →
      (∀ x ∈ d, x ∈ m.map SnapRec.name) →
      (m.filter (fun s => !(d.contains s.name))).length = m.length - d.length := by
  intro m
  induction m with
  | nil =>
    intro d _ _ hsub
    have hd : d = [] := by
      cases d with
      | nil => rfl
      | cons x xs => exact absurd (hsub x (List.mem_cons_self x xs)) (by simp)
    simp [hd]
  | cons s m ih =>
    intro d hm hd hsub
    have hs_name : s.name ∉ m.map SnapRec.name := (List.nodup_cons.mp hm).1
    have hm2 : (m.map SnapRec.name).Nodup := (List.nodup_cons.mp hm).2
    by_cases hmem : s.name ∈ d
    · have hdlen : 1 ≤ d.length := List.length_pos.mpr (by
        intro h; rw [h] at hmem; cases hmem)
      have hcon : (!(d.contains s.name)) = false := by simp [hmem]
      have hd' : (d.erase s.name).Nodup := hd.erase _
      have hsub' : ∀ x ∈ d.erase s.name, x ∈ m.map SnapRec.name := by
        intro x hx
        rcases (List.Nodup.mem_erase_iff hd).mp hx with ⟨hne, hxd⟩
        have hx2 := hsub x hxd
        rw [List.map_cons] at hx2
        rcases List.mem_cons.mp hx2 with h | h
        · exact absurd h hne
        · exact h
      have hlen' : (d.erase s.name).length ≤ m.length := by
        have hsp : List.Subperm (d.erase s.name) (m.map SnapRec.name) :=
          List.Nodup.subperm hd' hsub'
        have := hsp.length_le
        simpa using this
      have heq : m.filter (fun a => !(d.contains a.name))
          = m.filter (fun a => !((d.erase s.name).contains a.name)) := by
        apply List.filter_congr
        intro a ha
        have hane : a.name ≠ s.name := fun h =>
          hs_name (h ▸ List.mem_map_of_mem SnapRec.name ha)
        by_cases hin : a.name ∈ d
        · have hin2 : a.name ∈ d.erase s.name :=
            (List.Nodup.mem_erase_iff hd).mpr ⟨hane, hin⟩
          simp [hin, hin2]
        · have hin2 : a.name ∉ d.erase s.name := fun h =>
            hin (List.mem_of_mem_erase h)
          simp [hin, hin2]
      have herase : (d.erase s.name).length = d.length - 1 :=
        List.length_erase_of_mem hmem
      rw [List.filter_cons, hcon]
      simp only [if_neg Bool.false_ne_true]
      rw [heq, ih (d.erase s.name) hm2 hd' hsub', herase]
      rw [List.length_cons]
      omega
    · have hcon : (!(d.contains s.name)) = true := by simp [hmem]
      have hsub' : ∀ x ∈ d, x ∈ m.map SnapRec.name := by
        intro x hx
        have hx2 := hsub x hx
        rw [List.map_cons] at hx2
        rcases List.mem_cons.mp hx2 with h | h
        · exact absurd (h ▸ hx) hmem
        · exact h
      have hlen' : d.length ≤ m.length := by
        have hsp : List.Subperm d (m.map SnapRec.name) :=
          List.Nodup.subperm hd hsub'
        have := hsp.length_le
        simpa using this
      rw [List.filter_cons, hcon]
      simp only [if_true]
      rw [List.length_cons, ih d hm2 hd hsub', List.length_cons]
      omega

/-- The scheduled deletions of an over-limit tier: pairwise distinct
names of members, exactly `count - keep` of them. -/
theorem pruneTierNames_spec (sv0 : SubvolCfg)
    (hN : validNames sv0.snapshots) (t : Tier) :
    (pruneTierNames sv0 t).Nodup
    ∧ (pruneTierNames sv0 t).length
        = (tierMembers sv0.snapshots t).length - keepOf sv0 t
    ∧ ∀ x ∈ pruneTierNames sv0 t,
        x ∈ (tierMembers sv0.snapshots t).map SnapRec.name := by
  have hmn : ((tierMembers sv0.snapshots t).map SnapRec.name).Nodup := by
    have hsb : List.Sublist (tierMembers sv0.snapshots t) sv0.snapshots :=
      List.filter_sublist sv0.snapshots
    exact hN.sublist (hsb.map SnapRec.name)
  have hperm : List.Perm
      (List.insertionSort cdtLe (tierMembers sv0.snapshots t))
      (tierMembers sv0.snapshots t) :=
    List.perm_insertionSort cdtLe _
  have hsn : ((List.insertionSort cdtLe
      (tierMembers sv0.snapshots t)).map SnapRec.name).Nodup :=
    ((hperm.map SnapRec.name).nodup_iff).mpr hmn
  refine ⟨?_, ?_, ?_⟩
  · exact hsn.sublist
      ((List.take_sublist _ _).map SnapRec.name)
  · unfold pruneTierNames
    rw [List.length_map, List.length_take, List.length_insertionSort]
    exact Nat.min_eq_left (Nat.sub_le _ _)
  · intro x hx
    rcases pruneTierNames_from_members sv0 t x hx with ⟨s, hs, rfl⟩
    exact List.mem_map_of_mem SnapRec.name hs

/-- The names of the members of one tier are pairwise distinct. -/
theorem tierMembers_names_nodup (sv0 : SubvolCfg)
    (hN : validNames sv0.snapshots) (t : Tier) :
    ((tierMembers sv0.snapshots t).map SnapRec.name).Nodup :=
  hN.sublist ((List.filter_sublist sv0.snapshots).map SnapRec.name)

/-- The surviving members of an over-limit tier are exactly the sorted
members without their oldest `count - keep` entries, up to order. -/
theorem tier_filter_perm_drop (sv0 : SubvolCfg)
    (hN : validNames sv0.snapshots) (t : Tier) :
    List.Perm
      ((tierMembers sv0.snapshots t).filter
        (fun s => !(pruneTierNames sv0 t).contains s.name))
      ((List.insertionSort cdtLe (tierMembers sv0.snapshots t)).drop
        ((tierMembers sv0.snapshots t).length - keepOf sv0 t)) := by
  set m := tierMembers sv0.snapshots t with hm
  set srt := List.insertionSort cdtLe m with hsrt
  set nk := m.length - keepOf sv0 t with hnk
  have hperm : List.Perm srt m := List.perm_insertionSort cdtLe m
  have hsn : (srt.map SnapRec.name).Nodup :=
    ((hperm.map SnapRec.name).nodup_iff).mpr (tierMembers_names_nodup sv0 hN t)
  have hsplit : srt.take nk ++ srt.drop nk = srt := List.take_append_drop nk srt
  have hdisj : ∀ a ∈ srt.drop nk,
      a.name ∉ (srt.take nk).map SnapRec.name := by
    intro a ha hcontra
    have h2 : (srt.take nk).map SnapRec.name ++ (srt.drop nk).map SnapRec.name
        = srt.map SnapRec.name := by
      rw [← List.map_append, hsplit]
    have h3 : ((srt.take nk).map SnapRec.name
        ++ (srt.drop nk).map SnapRec.name).Nodup := by rw [h2]; exact hsn
    have h4 := (List.nodup_append.mp h3).2.2
    exact h4 hcontra (List.mem_map_of_mem SnapRec.name ha)
  have hdnames : pruneTierNames sv0 t = (srt.take nk).map SnapRec.name := rfl
  have hstep1 : List.Perm (m.filter
      (fun s => !(pruneTierNames sv0 t).contains s.name))
      (srt.filter (fun s => !(pruneTierNames sv0 t).contains s.name)) :=
    (hperm.filter _).symm
  have hstep2 : srt.filter (fun s => !(pruneTierNames sv0 t).contains s.name)
      = (srt.take nk).filter (fun s => !(pruneTierNames sv0 t).contains s.name)
        ++ (srt.drop nk).filter
            (fun s => !(pruneTierNames sv0 t).contains s.name) := by
    rw [← List.filter_append, hsplit]
  have htake : (srt.take nk).filter
      (fun s => !(pruneTierNames sv0 t).contains s.name) = [] := by
    rw [List.filter_eq_nil_iff]
    intro a ha
    have : a.name ∈ pruneTierNames sv0 t := by
      rw [hdnames]
      exact List.mem_map_of_mem SnapRec.name ha
    simp [this]
  have hdrop : (srt.drop nk).filter
      (fun s => !(pruneTierNames sv0 t).contains s.name) = srt.drop nk := by
    rw [List.filter_eq_self]
    intro a ha
    have : a.name ∉ pruneTierNames sv0 t := by
      rw [hdnames]
      exact hdisj a ha
    simp [this]
  have hfin : srt.filter (fun s => !(pruneTierNames sv0 t).contains s.name)
      = srt.drop nk := by
    rw [hstep2, htake, hdrop, List.nil_append]
  exact hfin ▸ hstep1

/-- In the sorted view, every entry of the deleted prefix is at most every
entry of the kept suffix. -/
theorem sorted_take_le_drop (l : List SnapRec) (nk : Nat) :
    ∀ a ∈ (List.insertionSort cdtLe l).take nk,
      ∀ b ∈ (List.insertionSort cdtLe l).drop nk, cdtLe a b := by
  have hs : List.Sorted cdtLe (List.insertionSort cdtLe l) :=
    List.sorted_insertionSort cdtLe l
  have hsplit : (List.insertionSort cdtLe l).take nk
      ++ (List.insertionSort cdtLe l).drop nk = List.insertionSort cdtLe l :=
    List.take_append_drop nk _
  rw [← hsplit] at hs
  exact (List.pairwise_append.mp hs).2.2

/-- After the pruning pass each prunable tier holds at most its keep
count. -/
theorem prune_tier_le (sv : SubvolCfg) (hN : validNames sv.snapshots)
    (t : Tier) (ht : t ∈ prunableTiers) :
    (tierMembers (prune sv).snapshots t).length ≤ keepOf sv t := by
  rw [tierMembers_prune sv hN t ht]
  by_cases h : keepOf sv t < (tierMembers sv.snapshots t).length
  · rw [if_pos h]
    rcases pruneTierNames_spec sv hN t with ⟨hnd, hlen, hsubn⟩
    rw [filter_not_names_length _ _ (tierMembers_names_nodup sv hN t) hnd hsubn,
        hlen]
    omega
  · rw [if_neg h]
    omega

/-- Folding loop iterations that are all identities is the identity. -/
theorem foldl_id_of_steps {f : List SnapRec → Tier → List SnapRec} :
    ∀ (ts : List Tier), (∀ t ∈ ts, ∀ c, f c t = c) →
      ∀ c, List.foldl f c ts = c := by
  intro ts
  induction ts with
  | nil => intro _ c; rfl
  | cons t ts ih =>
    intro h c
    rw [List.foldl_cons, h t (List.mem_cons_self t ts) c]
    exact ih (fun u hu c2 => h u (List.mem_cons_of_mem t hu) c2) c

/-- The function `prune` does not change the keep counts. -/
theorem keepOf_prune (sv : SubvolCfg) (t : Tier) :
    keepOf (prune sv) t = keepOf sv t := by
  cases t <;> rfl

-- Scenario check from the spec: pruning deletes exactly the snapshot
-- from time T.
example :
    (prune svScenario).snapshots
    = [ ⟨"s0", "p0", ⟨2022, 3, 2, 9, 0⟩, Tier.init⟩,
        ⟨"s2", "p2", ⟨2022, 3, 2, 11, 0⟩, Tier.hourly⟩,
        ⟨"s3", "p3", ⟨2022, 3, 2, 12, 0⟩, Tier.hourly⟩ ] := by decide

/-! ### Claim C3 -/

/-- C3: after any pruning pass over a subvolume, every prunable tier holds
at most `keep_count[tier]` snapshots, and the init snapshots are exactly
the ones present before the pass (so their number is unchanged — pruning
never deletes an init snapshot). -/
theorem prune_keepcount_invariant (sv : SubvolCfg)
    (hN : validNames sv.snapshots) :
    (∀ t ∈ prunableTiers,
        (tierMembers (prune sv).snapshots t).length ≤ keepOf sv t)
    ∧ tierMembers (prune sv).snapshots Tier.init
        = tierMembers sv.snapshots Tier.init :=
  ⟨fun t ht => prune_tier_le sv hN t ht, tierMembers_prune_init sv hN⟩

/-- Instantiation of `prune_keepcount_invariant` at the concrete scenario
subvolume. -/
theorem prune_keepcount_invariant_witness :
    validNames svScenario.snapshots
    ∧ ((tierMembers (prune svScenario).snapshots Tier.hourly).length
          ≤ keepOf svScenario Tier.hourly
      ∧ tierMembers (prune svScenario).snapshots Tier.init
          = tierMembers svScenario.snapshots Tier.init) :=
  ⟨by decide,
   ⟨(prune_keepcount_invariant svScenario (by decide)).1 Tier.hourly (by decide),
    (prune_keepcount_invariant svScenario (by decide)).2⟩⟩

/-! ### Claim C4 -/

/-- C4: for each prunable tier considered independently, when the tier is
over its keep count pruning deletes exactly `count - keep` snapshots and
keeps, up to order, precisely the sorted-by-creation-time members minus
their oldest `count - keep` entries (every deleted snapshot is no newer
than every kept one); a tier at or under its keep count loses nothing. -/
theorem prune_deletes_exactly_oldest (sv : SubvolCfg)
    (hN : validNames sv.snapshots) (t : Tier) (ht : t ∈ prunableTiers) :
    (keepOf sv t < (tierMembers sv.snapshots t).length →
        (tierMembers (prune sv).snapshots t).length = keepOf sv t
        ∧ List.Perm (tierMembers (prune sv).snapshots t)
            ((List.insertionSort cdtLe (tierMembers sv.snapshots t)).drop
              ((tierMembers sv.snapshots t).length - keepOf sv t))
        ∧ ∀ d ∈ (List.insertionSort cdtLe (tierMembers sv.snapshots t)).take
              ((tierMembers sv.snapshots t).length - keepOf sv t),
            ∀ s ∈ tierMembers (prune sv).snapshots t,
              toMin d.cdt ≤ toMin s.cdt)
    ∧ ((tierMembers sv.snapshots t).length ≤ keepOf sv t →
        tierMembers (prune sv).snapshots t = tierMembers sv.snapshots t) := by
  constructor
  · intro h
    have hchar := tierMembers_prune sv hN t ht
    rw [if_pos h] at hchar
    refine ⟨?_, ?_, ?_⟩
    · rw [hchar]
      rcases pruneTierNames_spec sv hN t with ⟨hnd, hlen, hsubn⟩
      rw [filter_not_names_length _ _ (tierMembers_names_nodup sv hN t)
        hnd hsubn, hlen]
      omega
    · rw [hchar]
      exact tier_filter_perm_drop sv hN t
    · intro d hd s hs
      rw [hchar] at hs
      have hperm := tier_filter_perm_drop sv hN t
      have hs2 : s ∈ (List.insertionSort cdtLe
          (tierMembers sv.snapshots t)).drop
            ((tierMembers sv.snapshots t).length - keepOf sv t) :=
        hperm.subset hs
      exact sorted_take_le_drop (tierMembers sv.snapshots t) _ d hd s hs2
  · intro h
    have hchar := tierMembers_prune sv hN t ht
    rw [if_neg (Nat.not_lt.mpr h)] at hchar
    exact hchar

/-- Instantiation of `prune_deletes_exactly_oldest` at the concrete
scenario subvolume, whose hourly tier is over its keep count. -/
theorem prune_deletes_exactly_oldest_witness :
    validNames svScenario.snapshots
    ∧ Tier.hourly ∈ prunableTiers
    ∧ keepOf svScenario Tier.hourly
        < (tierMembers svScenario.snapshots Tier.hourly).length
    ∧ (tierMembers (prune svScenario).snapshots Tier.hourly).length
        = keepOf svScenario Tier.hourly :=
  ⟨by decide, by decide, by decide,
   ((prune_deletes_exactly_oldest svScenario (by decide) Tier.hourly
      (by decide)).1 (by decide)).1⟩

/-! ### Claim C7 -/

/-- C7: pruning is idempotent — running the pruning pass twice in a row
with no snapshot taken in between changes nothing the second time, and the
state after the second pass equals the state after the first. -/
theorem prune_idempotent (sv : SubvolCfg) (hN : validNames sv.snapshots) :
    prune (prune sv) = prune sv := by
  have hstep : ∀ t ∈ prunableTiers, ∀ cur,
      pruneStep (prune sv) cur t = cur := by
    intro t ht cur
    have hle := Nat.not_lt.mpr (prune_tier_le sv hN t ht)
    rw [pruneStep, if_neg (by rw [keepOf_prune]; exact hle)]
  have h2 : prune (prune sv) = { (prune sv) with snapshots := List.foldl (pruneStep (prune sv)) (prune sv).snapshots prunableTiers } := rfl
  rw [h2, foldl_id_of_steps prunableTiers hstep (prune sv).snapshots]

/-- Instantiation of `prune_idempotent` at the concrete scenario
subvolume. -/
theorem prune_idempotent_witness :
    validNames svScenario.snapshots
    ∧ prune (prune svScenario) = prune svScenario :=
  ⟨by decide, prune_idempotent svScenario (by decide)⟩

/-! ### Claim C2 -/

/-- Decrementing a prunable tier count succeeds and lowers that tier by
one. -/
theorem decAt_get (c : Counts) (t : Tier) (ht : t ≠ Tier.init) :
    ∃ c2, c.decAt t = Except.ok c2
      ∧ c2.get? t = (c.get? t).map (fun n => n - 1) := by
  cases t
  · exact absurd rfl ht
  all_goals exact ⟨_, rfl, rfl⟩

/-- Embedded `list.remove` on a member drops exactly one element. -/
theorem removeFirst_mem :
    ∀ (l : List BSnap) (x : BSnap), (∃ y ∈ l, y.pyEq x = true) →
      ∃ l2, removeFirst l x = Except.ok l2 ∧ l2.length + 1 = l.length := by
  intro l x
  induction l with
  | nil =>
    intro h
    rcases h with ⟨y, hy, _⟩
    cases hy
  | cons z zs ih =>
    intro h
    by_cases hz : z.pyEq x = true
    · exact ⟨zs, by simp [removeFirst, hz], rfl⟩
    · have h2 : ∃ y ∈ zs, y.pyEq x = true := by
        rcases h with ⟨y, hy, hpy⟩
        rcases List.mem_cons.mp hy with rfl | hy2
        · exact absurd hpy hz
        · exact ⟨y, hy2, hpy⟩
      rcases ih h2 with ⟨l2, hl2, hlen⟩
      refine ⟨z :: l2, ?_, by simp [List.length_cons]; omega⟩
      unfold removeFirst
      rw [if_neg hz, hl2]
      rfl

/-- Embedded `list.remove` on a non-member raises `ValueError`. -/
theorem removeFirst_not_mem :
    ∀ (l : List BSnap) (x : BSnap), (∀ y ∈ l, ¬ y.pyEq x = true) →
      removeFirst l x = Except.error PyErr.valueError := by
  intro l x
  induction l with
  | nil => intro _; rfl
  | cons z zs ih =>
    intro h
    have hz := h z (List.mem_cons_self z zs)
    unfold removeFirst
    rw [if_neg hz, ih (fun y hy => h y (List.mem_cons_of_mem z hy))]
    rfl

/-- C2 counterexample: deleting a snapshot whose backend deletion is not
performed (it is non-physical, so `Snapshot.delete` merely logs a failure)
nevertheless removes it from the collection, decrements the hourly count,
and surfaces no error — against the claim that a failed deletion leaves
the snapshot present, the count unchanged and the failure surfaced. -/
theorem delete_snapshot_counterexample :
    snapDeleteBackendOk snapC2 = false
    ∧ delete_snapshot svC2 snapC2
        = ({ svC2 with counts := ⟨0, 0, 0, 0, 0⟩, snapshots := [] }, none) :=
  ⟨rfl, by decide⟩

/-- C2 amended: `delete_snapshot` decrements the tier count first and
unconditionally, `snapshot.delete()` never reports failure, and the
removal from the collection happens regardless of whether the backend
deletion was performed; a member of a prunable tier is always removed with
the count decremented and no error surfaced, whatever its `physical` flag,
and for a non-member the count is still decremented before the
`ValueError` from `list.remove` surfaces. -/
theorem delete_snapshot_unconditional (sv : BSubvol) (snap : BSnap)
    (ht : snap.type_ ≠ Tier.init) :
    ((∃ y ∈ sv.snapshots, y.pyEq snap = true) →
        (delete_snapshot sv snap).2 = none
        ∧ (delete_snapshot sv snap).1.snapshots.length + 1
            = sv.snapshots.length
        ∧ (delete_snapshot sv snap).1.counts.get? snap.type_
            = (sv.counts.get? snap.type_).map (fun n => n - 1))
    ∧ ((∀ y ∈ sv.snapshots, ¬ y.pyEq snap = true) →
        (delete_snapshot sv snap).2 = some PyErr.valueError
        ∧ (delete_snapshot sv snap).1.counts.get? snap.type_
            = (sv.counts.get? snap.type_).map (fun n => n - 1)) := by
  rcases decAt_get sv.counts snap.type_ ht with ⟨c2, hdec, hget⟩
  constructor
  · intro hmem
    rcases removeFirst_mem sv.snapshots snap hmem with ⟨l2, hrem, hlen⟩
    have hds : delete_snapshot sv snap
        = ({ sv with counts := c2, snapshots := l2 }, none) := by
      simp [delete_snapshot, hdec, hrem]
    rw [hds]
    exact ⟨rfl, by simpa using hlen, hget⟩
  · intro hnm
    have hrem := removeFirst_not_mem sv.snapshots snap hnm
    have hds : delete_snapshot sv snap
        = ({ sv with counts := c2 }, some PyErr.valueError) := by
      simp [delete_snapshot, hdec, hrem]
    rw [hds]
    exact ⟨rfl, hget⟩

/-- Instantiation of `delete_snapshot_unconditional` at the concrete
non-physical snapshot. -/
theorem delete_snapshot_unconditional_witness :
    snapC2.type_ ≠ Tier.init
    ∧ (∃ y ∈ svC2.snapshots, y.pyEq snapC2 = true)
    ∧ ((delete_snapshot svC2 snapC2).2 = none
       ∧ (delete_snapshot svC2 snapC2).1.snapshots.length + 1
           = svC2.snapshots.length
       ∧ (delete_snapshot svC2 snapC2).1.counts.get? snapC2.type_
           = (svC2.counts.get? snapC2.type_).map (fun n => n - 1)) :=
  ⟨by decide, by decide,
   (delete_snapshot_unconditional svC2 snapC2 (by decide)).1 (by decide)⟩

/-! ### Claim C5 -/

/-- C5: the `--init-subvolume` duplicate check compares `Subvolume`
objects by name; a duplicate name produces the names-must-be-unique exit
before any mutation, the registry list is returned unchanged by every
branch of the operation, and therefore name-uniqueness of the registry is
preserved by it. -/
theorem registry_duplicate_check (reg : List RegSubvol) (temp : RegSubvol) :
    ((∃ e ∈ reg, e.name = temp.name) →
        initSubvolume reg temp = (InitOutcome.duplicateName, reg))
    ∧ (initSubvolume reg temp).2 = reg
    ∧ ((reg.map RegSubvol.name).Nodup →
        ((initSubvolume reg temp).2.map RegSubvol.name).Nodup) := by
  have hsnd : (initSubvolume reg temp).2 = reg := by
    unfold initSubvolume
    split
    · rfl
    · split
      · rfl
      · rfl
  refine ⟨?_, hsnd, ?_⟩
  · rintro ⟨e, he, hn⟩
    have hc : registryContains reg temp = true := by
      unfold registryContains
      rw [List.any_eq_true]
      exact ⟨e, he, by simp [hn]⟩
    unfold initSubvolume
    rw [if_pos hc]
  · intro h
    rw [hsnd]
    exact h

/-- Instantiation of `registry_duplicate_check` at a concrete
collision. -/
theorem registry_duplicate_check_witness :
    (∃ e ∈ regC5, e.name = tempC5.name)
    ∧ initSubvolume regC5 tempC5 = (InitOutcome.duplicateName, regC5) :=
  ⟨by decide, (registry_duplicate_check regC5 tempC5).1 (by decide)⟩

/-! ### Claim C9 -/

/-- C9: under the module flag `TESTING = True` every existence check
succeeds, and `Subvolume.__init__` then reads the never-assigned attribute
`snapshot_subvol` (the assigned attribute is `snapshots_subvol`), raising
`AttributeError` before completing — so no `Subvolume` whose path passes
the existence check is ever successfully constructed. -/
theorem subvolInit_attribute_error (backend : String → Bool)
    (path ss : String) (h d w m y : Int) :
    subvolExists backend path = true
    ∧ subvolInit backend path ss h d w m y
        = Except.error (PyErr.attributeError "snapshot_subvol") :=
  ⟨rfl, rfl⟩

/-! ### Claim C10 -/

/-- C10: every `Snapshot` construction raises `TypeError`, because
`__init__` calls `self.exists(self.path)` while `exists` is declared with
no parameter besides `self`; hence no `Snapshot` object is ever
constructed, and `take_snapshot` never returns one — on a physical
subvolume it raises (hitting the `snapshot_subvol` `AttributeError` even
before reaching the constructor), and on a non-physical one it returns
`None`. -/
theorem snapshot_never_constructed (backend : String → Bool)
    (name path : String) (t : Tier) (cdt : DateTime) (sn : String)
    (ro : Bool) (sv : BSubvol) (now : DateTime) (ro2 : Bool) :
    snapshotInit backend name path t cdt sn ro
      = Except.error PyErr.typeError
    ∧ ∀ (res : BSubvol) (snap : BSnap),
        takeSnapshot backend sv t now ro2 ≠ Except.ok (res, some snap) := by
  constructor
  · rfl
  · intro res snap hcontra
    unfold takeSnapshot at hcontra
    by_cases hp : sv.physical
    · rw [if_pos hp] at hcontra
      have hattr : getAttrTest subvolAttrs "snapshot_subvol"
          = Except.error (PyErr.attributeError "snapshot_subvol") := rfl
      rw [hattr] at hcontra
      simp at hcontra
    · rw [if_neg hp] at hcontra
      simp at hcontra

/-- Instantiation of `snapshot_never_constructed` at concrete
arguments. -/
theorem snapshot_never_constructed_witness :
    snapshotInit (fun _ => true) "snap" "/p" Tier.hourly ⟨2022, 1, 1, 0, 0⟩
      "root" true = Except.error PyErr.typeError :=
  (snapshot_never_constructed (fun _ => true) "snap" "/p" Tier.hourly
    ⟨2022, 1, 1, 0, 0⟩ "root" true
    { name := "root", path := "/", physical := false,
      counts := ⟨0, 0, 0, 0, 0⟩, keeps := ⟨0, 0, 0, 0, 0⟩, snapshots := [] }
    ⟨2022, 1, 1, 0, 0⟩ true).1

/-! ### Claim C8 -/

/-- The last element of a list, when it exists, is a member. -/
theorem mem_of_getLast_opt {α : Type} :
    ∀ {l : List α} {a : α}, l.getLast? = some a → a ∈ l := by
  intro l
  induction l with
  | nil => intro a h; cases h
  | cons x xs ih =>
    intro a h
    cases xs with
    | nil =>
      have : x = a := by simpa using h
      simp [this]
    | cons y ys =>
      have h2 : (y :: ys).getLast? = some a := by simpa using h
      exact List.mem_cons_of_mem x (ih h2)

/-- In a sorted list every element is at most the last one. -/
theorem sorted_rel_getLast :
    ∀ {l : List BSnap}, List.Sorted bcdtLe l →
      ∀ {x s : BSnap}, x ∈ l → l.getLast? = some s → bcdtLe x s := by
  intro l
  induction l with
  | nil => intro _ x s hx _; cases hx
  | cons y ys ih =>
    intro hs x s hx hlast
    cases ys with
    | nil =>
      have hx2 : x = y := by simpa using hx
      have hs2 : y = s := by simpa using hlast
      rw [hx2, hs2]
      exact Nat.le_refl _
    | cons z zs =>
      have hlast2 : (z :: zs).getLast? = some s := by simpa using hlast
      rcases List.mem_cons.mp hx with rfl | hx2
      · exact (List.sorted_cons.mp hs).1 s (mem_of_getLast_opt hlast2)
      · exact ih (List.sorted_cons.mp hs).2 hx2 hlast2

/-- In a sorted list the head is at most every element. -/
theorem sorted_head_rel {l : List BSnap} (hs : List.Sorted bcdtLe l)
    {x s : BSnap} (hx : x ∈ l) (hhead : l.head? = some s) : bcdtLe s x := by
  cases l with
  | nil => cases hx
  | cons y ys =>
    have hsy : y = s := by simpa using hhead
    rcases List.mem_cons.mp hx with rfl | hx2
    · rw [← hsy]
      exact Nat.le_refl _
    · rw [← hsy]
      exact (List.sorted_cons.mp hs).1 x hx2

/-- The head of a list, when it exists, is a member. -/
theorem mem_of_head_opt {α : Type} {l : List α} {a : α}
    (h : l.head? = some a) : a ∈ l := by
  cases l with
  | nil => cases h
  | cons y ys =>
    have : y = a := by simpa using h
    rw [← this]
    exact List.mem_cons_self y ys

/-- A nonempty list has a head. -/
theorem head_opt_of_ne_nil {α : Type} {l : List α} (h : l ≠ []) :
    ∃ a, l.head? = some a := by
  cases l with
  | nil => exact absurd rfl h
  | cons y ys => exact ⟨y, rfl⟩

/-- A nonempty list has a last element. -/
theorem getLast_opt_of_ne_nil {α : Type} :
    ∀ {l : List α}, l ≠ [] → ∃ a, l.getLast? = some a := by
  intro l
  induction l with
  | nil => intro h; exact absurd rfl h
  | cons x xs ih =>
    intro _
    cases hx : xs with
    | nil => exact ⟨x, rfl⟩
    | cons y ys =>
      rcases ih (by simp [hx]) with ⟨a, ha⟩
      refine ⟨a, ?_⟩
      rw [hx] at ha
      simpa using ha

/-- Combined description of the last and first element of a sorted view
`L` of a query result `M`. -/
theorem sorted_query_bounds {L M : List BSnap} (hperm : List.Perm L M)
    (hsorted : List.Sorted bcdtLe L) :
    (M = [] → L.getLast? = none ∧ L.head? = none)
    ∧ (M ≠ [] →
        (∃ s, L.getLast? = some s ∧ s ∈ M
            ∧ ∀ x ∈ M, toMin x.cdt ≤ toMin s.cdt)
        ∧ (∃ s, L.head? = some s ∧ s ∈ M
            ∧ ∀ x ∈ M, toMin s.cdt ≤ toMin x.cdt)) := by
  constructor
  · intro hM
    have hL : L = [] := by
      have : List.Perm L [] := hM ▸ hperm
      exact this.eq_nil
    rw [hL]
    exact ⟨rfl, rfl⟩
  · intro hM
    have hLne : L ≠ [] := by
      intro h
      exact hM (((h ▸ hperm : List.Perm [] M)).nil_eq).symm
    constructor
    · rcases getLast_opt_of_ne_nil hLne with ⟨s, hs⟩
      refine ⟨s, hs, hperm.subset (mem_of_getLast_opt hs), ?_⟩
      intro x hx
      exact sorted_rel_getLast hsorted (hperm.mem_iff.mpr hx) hs
    · rcases head_opt_of_ne_nil hLne with ⟨s, hs⟩
      refine ⟨s, hs, hperm.subset (mem_of_head_opt hs), ?_⟩
      intro x hx
      exact sorted_head_rel hsorted (hperm.mem_iff.mpr hx) hs

/-- C8: `newest_snapshot`/`oldest_snapshot` return the chronologically
last respectively first snapshot of the query (the whole collection, or
one tier), and fail — with the `IndexError` that realises the `Empty`
failure — exactly when no snapshot matches the query. -/
theorem newest_oldest_query (sv : BSubvol) (q : Option Tier) :
    (queryMembers sv q = [] →
        newest_snapshot sv q = Except.error PyErr.indexError
        ∧ oldest_snapshot sv q = Except.error PyErr.indexError)
    ∧ (queryMembers sv q ≠ [] →
        (∃ s, newest_snapshot sv q = Except.ok s ∧ s ∈ queryMembers sv q
            ∧ ∀ x ∈ queryMembers sv q, toMin x.cdt ≤ toMin s.cdt)
        ∧ (∃ s, oldest_snapshot sv q = Except.ok s ∧ s ∈ queryMembers sv q
            ∧ ∀ x ∈ queryMembers sv q, toMin s.cdt ≤ toMin x.cdt)) := by
  cases q with
  | some t =>
    have hperm : List.Perm (List.insertionSort bcdtLe
        ((List.insertionSort bcdtLe sv.snapshots).filter
          (fun s => s.type_ == t)))
        (sv.snapshots.filter (fun s => s.type_ == t)) :=
      (List.perm_insertionSort bcdtLe _).trans
        ((List.perm_insertionSort bcdtLe sv.snapshots).filter _)
    have hsorted : List.Sorted bcdtLe (List.insertionSort bcdtLe
        ((List.insertionSort bcdtLe sv.snapshots).filter
          (fun s => s.type_ == t))) :=
      List.sorted_insertionSort bcdtLe _
    have key := sorted_query_bounds hperm hsorted
    have hq : queryMembers sv (some t)
        = sv.snapshots.filter (fun s => s.type_ == t) := rfl
    constructor
    · intro hM
      rw [hq] at hM
      rcases key.1 hM with ⟨hlast, hhead⟩
      constructor
      · simp only [newest_snapshot]
        rw [hlast]
      · simp only [oldest_snapshot]
        rw [hhead]
    · intro hM
      rw [hq] at hM
      rcases key.2 hM with ⟨⟨s1, hs1, hm1, hb1⟩, ⟨s2, hs2, hm2, hb2⟩⟩
      constructor
      · refine ⟨s1, ?_, hm1, hb1⟩
        simp only [newest_snapshot]
        rw [hs1]
      · refine ⟨s2, ?_, hm2, hb2⟩
        simp only [oldest_snapshot]
        rw [hs2]
  | none =>
    have hperm : List.Perm (List.insertionSort bcdtLe sv.snapshots)
        sv.snapshots := List.perm_insertionSort bcdtLe _
    have hsorted : List.Sorted bcdtLe (List.insertionSort bcdtLe sv.snapshots) :=
      List.sorted_insertionSort bcdtLe _
    have key := sorted_query_bounds hperm hsorted
    have hq : queryMembers sv none = sv.snapshots := rfl
    constructor
    · intro hM
      rw [hq] at hM
      rcases key.1 hM with ⟨hlast, hhead⟩
      constructor
      · simp only [newest_snapshot]
        rw [hlast]
      · simp only [oldest_snapshot]
        rw [hhead]
    · intro hM
      rw [hq] at hM
      rcases key.2 hM with ⟨⟨s1, hs1, hm1, hb1⟩, ⟨s2, hs2, hm2, hb2⟩⟩
      constructor
      · refine ⟨s1, ?_, hm1, hb1⟩
        simp only [newest_snapshot]
        rw [hs1]
      · refine ⟨s2, ?_, hm2, hb2⟩
        simp only [oldest_snapshot]
        rw [hs2]

/-- Instantiation of `newest_oldest_query`: the hourly query on `svC8` is
nonempty and its newest snapshot is the chronologically last one. -/
theorem newest_oldest_query_witness :
    queryMembers svC8 (some Tier.hourly) ≠ []
    ∧ ∃ s, newest_snapshot svC8 (some Tier.hourly) = Except.ok s
        ∧ s ∈ queryMembers svC8 (some Tier.hourly)
        ∧ ∀ x ∈ queryMembers svC8 (some Tier.hourly),
            toMin x.cdt ≤ toMin s.cdt :=
  ⟨by decide,
   ((newest_oldest_query svC8 (some Tier.hourly)).2 (by decide)).1⟩

/-! ### Claim C1 -/

/-- C1 counterexample: the source evaluates the daily condition first, so
the pair (2021-12-31T23:00, 2022-01-01T00:00) — which satisfies the
one-hour gate — classifies as `daily`, not `yearly` as the claim states. -/
theorem classify_new_year_daily_not_yearly :
    toMin prevNewYear + 60 ≤ toMin nowNewYear
    ∧ classify prevNewYear nowNewYear = Tier.daily
    ∧ classify prevNewYear nowNewYear ≠ Tier.yearly :=
  ⟨by decide, by decide, by decide⟩

/-- C1 amended: for every pair with `now ≥ prev + 1h` the classification
is first-match-wins over the conditions in the priority order daily,
weekly, monthly, yearly with fallback hourly (not yearly-first as
claimed); in particular the example pair classifies as `daily`. -/
theorem classify_priority_daily_first (prev now : DateTime)
    (_h : toMin prev + 60 ≤ toMin now) :
    classify prev now
      = firstMatch
          [(dailyCond prev now, Tier.daily),
           (weeklyCond prev now, Tier.weekly),
           (monthlyCond prev now, Tier.monthly),
           (yearlyCond prev now, Tier.yearly)]
          Tier.hourly
    ∧ classify prevNewYear nowNewYear = Tier.daily :=
  ⟨rfl, by decide⟩

/-- Instantiation of `classify_priority_daily_first` at the example
pair. -/
theorem classify_priority_daily_first_witness :
    toMin prevNewYear + 60 ≤ toMin nowNewYear
    ∧ classify prevNewYear nowNewYear
        = firstMatch
            [(dailyCond prevNewYear nowNewYear, Tier.daily),
             (weeklyCond prevNewYear nowNewYear, Tier.weekly),
             (monthlyCond prevNewYear nowNewYear, Tier.monthly),
             (yearlyCond prevNewYear nowNewYear, Tier.yearly)]
            Tier.hourly :=
  ⟨by decide,
   (classify_priority_daily_first prevNewYear nowNewYear (by decide)).1⟩

/-! ### Claim C6 -/

/-- C6: in a rotation pass over a subvolume with at least one snapshot, a
new snapshot is taken exactly when `now ≥ prev + 1h` where `prev` is the
previous newest timestamp; a sub-hourly gap takes nothing and raises no
error, and in both cases the pass continues into pruning. -/
theorem hourly_gate (now : DateTime) (sv : SubvolCfg)
    (h : sv.snapshots ≠ []) :
    ∃ newest, maxByCdt sv.snapshots = some newest
      ∧ (toMin newest.cdt + 60 ≤ toMin now →
          ∃ sv1, takeStep now sv = some sv1
            ∧ sv1.snapshots.length = sv.snapshots.length + 1
            ∧ rotateSubvol now sv = some (prune sv1))
      ∧ (¬ toMin newest.cdt + 60 ≤ toMin now →
          takeStep now sv = some sv
          ∧ rotateSubvol now sv = some (prune sv)) := by
  cases hsv : sv.snapshots with
  | nil => exact absurd hsv h
  | cons x xs =>
    refine ⟨xs.foldl
      (fun acc s => if toMin acc.cdt < toMin s.cdt then s else acc) x,
      ?_, ?_, ?_⟩
    · rfl
    · intro hge
      have hmax : maxByCdt sv.snapshots = some (xs.foldl
          (fun acc s => if toMin acc.cdt < toMin s.cdt then s else acc) x) := by
        rw [hsv]
        rfl
      have htake : takeStep now sv = some { sv with snapshots := sv.snapshots ++
          [{ name := sv.name ++ "-" ++ isoformatDT now,
             path := pathJoin (pathJoin sv.path snapshotSubvolName)
                       (sv.name ++ "-" ++ isoformatDT now),
             cdt := now,
             type_ := classify (xs.foldl (fun acc s =>
               if toMin acc.cdt < toMin s.cdt then s else acc) x).cdt now }] } := by
        unfold takeStep
        rw [hmax]
        exact if_pos hge
      refine ⟨_, htake, ?_, ?_⟩
      · simp [hsv]
      · show (takeStep now sv).map prune = _
        rw [htake]
        rfl
    · intro hlt
      have hmax : maxByCdt sv.snapshots = some (xs.foldl
          (fun acc s => if toMin acc.cdt < toMin s.cdt then s else acc) x) := by
        rw [hsv]
        rfl
      have htake : takeStep now sv = some sv := by
        unfold takeStep
        rw [hmax]
        exact if_neg hlt
      refine ⟨htake, ?_⟩
      show (takeStep now sv).map prune = _
      rw [htake]
      rfl

/-- Instantiation of `hourly_gate` at the concrete subvolume, ninety
minutes after its only snapshot. -/
theorem hourly_gate_witness :
    svGate.snapshots ≠ []
    ∧ ∃ sv1, takeStep ⟨2022, 3, 2, 10, 30⟩ svGate = some sv1
        ∧ sv1.snapshots.length = svGate.snapshots.length + 1 := by
  have hne : svGate.snapshots ≠ [] := by decide
  rcases hourly_gate ⟨2022, 3, 2, 10, 30⟩ svGate hne with ⟨newest, hmax, hyes, _⟩
  have hn : newest = ⟨"s0", "p0", ⟨2022, 3, 2, 9, 0⟩, Tier.init⟩ := by
    have h0 : maxByCdt svGate.snapshots
        = some ⟨"s0", "p0", ⟨2022, 3, 2, 9, 0⟩, Tier.init⟩ := by decide
    rw [h0] at hmax
    exact (Option.some_inj.mp hmax).symm
  rcases hyes (by rw [hn]; decide) with ⟨sv1, h1, h2, _⟩
  exact ⟨hne, sv1, h1, h2⟩
